import Mathlib

/-!
Verification of the materials/boundary tracking engine of the blobmaker
repository (`materials.py`: `Material`, `MaterialsTracker`).

The stateful Python code is embedded as explicit state passing over a
`MaterialsTracker` record. The external CAD kernel (cubit) is modelled as a
static oracle (`Kernel`): every kernel query an operation performs is read
from the oracle, and fire-and-forget `cubit.cmd` calls that only change
kernel-side state are dropped, since no tracked claim observes them.
Fallible code returns `Except`. Python control flow (early `return`,
iteration over a list that is mutated while being iterated, `list.remove`)
is embedded with CPython's semantics, explained at each definition.
-/

set_option maxRecDepth 4096

/-- Modelled from the spec: `GenericEntity`/`GenericCubitInstance` lives in
`generic_classes.py`, which is not under `src/`. Per the spec (§2, §3) it is an
immutable value of a kind tag plus an integer identifier, with structural
equality. The kind tags are the entity kinds the kernel knows. -/
inductive EntityKind where
  | vertex
  | curve
  | surface
  | volume
  | body
  | group
deriving DecidableEq

/-- Modelled from the spec: one external-kernel entity, `{kind, id}`,
structural equality (spec §3). The field names follow the source
(`cid`, `geometry_type`). -/
structure GenericCubitInstance where
  cid : Nat
  geometry_type : EntityKind
deriving DecidableEq

/-- Python exceptions that the embedded code can raise. `CubismError` (from
`generic_classes.py`) carries a message; `ValueError` is what
`list.remove(x)` raises when `x` is not in the list. -/
inductive PyErr where
  | cubism (msg : String)
  | valueError (msg : String)
deriving DecidableEq

/-- `Material` from `materials.py` lines 5-26: name, cubit group id, the
tracked geometries in insertion order, and the inert `state_of_matter`
label. The same record shape is reused for boundaries (source line 145,
170). -/
structure Material where
  name : String
  group_id : Nat
  geometries : List GenericCubitInstance
  state_of_matter : String
deriving DecidableEq

instance : Inhabited Material := ⟨⟨"", 0, [], ""⟩⟩

/-- Modelled from the spec: the external kernel adapter (spec §6) together
with the two helpers of `cubit_functions.py`, which is not under `src/`
(`cubit_cmd_check`, `from_bodies_and_volumes_to_surfaces`). The tracker only
reads these query results; the oracle is static because the tracker is the
kernel session's sole owner (spec §5) and no claim observes kernel-side
state directly.
* `get_id_from_name name`: id of the named group (source line 56).
* `merge_groups g1 g2`: `cubit_cmd_check("merge group ...", "group")`
  (source line 162); per the spec, `none` signals that the merge produced
  no new group.
* `get_group_surfaces g`: surface ids the kernel reports as members of
  group `g`, in reported order (source lines 139, 171).
* `create_group_check name`: id returned by
  `cubit_cmd_check('create group "name"', "group")` (source line 144);
  per the spec (`create_named_group(name) -> group_id`) creation succeeds.
* `from_bodies_and_volumes_to_surfaces gs`: the body/volume to surface
  decomposition closure (source line 26).
* `all_unmerged_surfaces`: the surfaces reported by the
  `"unmerged_surfaces"` group query (source lines 137-139). -/
structure Kernel where
  get_id_from_name : String → Nat
  merge_groups : Nat → Nat → Option Nat
  get_group_surfaces : Nat → List Nat
  create_group_check : String → Nat
  from_bodies_and_volumes_to_surfaces : List GenericCubitInstance → List GenericCubitInstance
  all_unmerged_surfaces : List Nat

/-- `Material.get_surface_ids` (source lines 25-26). -/
def Material.get_surface_ids (self : Material) (k : Kernel) : List Nat :=
  (k.from_bodies_and_volumes_to_surfaces self.geometries).map (fun i => i.cid)

/-- `MaterialsTracker` state: the `materials` and `boundaries` lists
(source lines 32-33). In the source these are class-level attributes; see
`TrackerInstance` below for the sharing claim. -/
structure MaterialsTracker where
  materials : List Material
  boundaries : List Material
deriving DecidableEq

/-- The state at the start of a process: both class attributes are
initialised to the empty list (source lines 32-33). -/
def initial_tracker : MaterialsTracker := ⟨[], []⟩

/-- `MaterialsTracker.make_material` (source lines 35-44): append a new
`Material` unless the name is already present. -/
def MaterialsTracker.make_material (self : MaterialsTracker) (material_name : String)
    (group_id : Nat) : MaterialsTracker :=
  if material_name ∈ self.materials.map (fun i => i.name) then self
  else { self with materials := self.materials ++ [⟨material_name, group_id, [], ""⟩] }

/-- `MaterialsTracker.contains_material` (source lines 66-74). -/
def MaterialsTracker.contains_material (self : MaterialsTracker) (material_name : String) : Bool :=
  if material_name ∈ self.materials.map (fun i => i.name) then true else false

/-- Outcome of a Python call, distinguishing a normal `return` from a
raised exception. -/
inductive PyOutcome (α : Type) where
  | returned (a : α)
  | raised (e : PyErr)
deriving DecidableEq

/-- What `add_geometry_to_material` can `return`: the literal `True`
(source line 63), or — on the fall-through path — a `CubismError` OBJECT
returned as an ordinary value (source line 64 reads
`return CubismError("Could not add component")`, not `raise`). -/
inductive AddGeometryReturn where
  | boolTrue
  | errorValue (msg : String)
deriving DecidableEq

/-- The lookup-and-append phase of `add_geometry_to_material` (source lines
59-64): scan `self.materials`; at the first material whose name matches,
append the geometry (`Material.add_geometry`, source lines 16-20; the
`isinstance` guard always holds in this typed embedding) and return `True`;
if the scan finds nothing, the source RETURNS a `CubismError` value. -/
def add_geometry_find_phase (geometry : GenericCubitInstance) (material_name : String) :
    List Material → List Material × PyOutcome AddGeometryReturn
  | [] => ([], .returned (.errorValue "Could not add component"))
  | m :: ms =>
    if m.name = material_name then
      ({ m with geometries := m.geometries ++ [geometry] } :: ms, .returned .boolTrue)
    else
      let r := add_geometry_find_phase geometry material_name ms
      (m :: r.1, r.2)

/-- `MaterialsTracker.add_geometry_to_material` (source lines 46-64):
issue the kernel add-to-group command (kernel side only), resolve the group
id, ensure the record exists via `make_material`, then run the lookup
phase. -/
def MaterialsTracker.add_geometry_to_material (self : MaterialsTracker) (k : Kernel)
    (geometry : GenericCubitInstance) (material_name : String) :
    MaterialsTracker × PyOutcome AddGeometryReturn :=
  let group_id := k.get_id_from_name material_name
  let s := self.make_material material_name group_id
  let r := add_geometry_find_phase geometry material_name s.materials
  ({ s with materials := r.1 }, r.2)

/-- The loop of `get_boundary_ids` (source lines 101-104): first boundary
with the given name wins; falling off the loop raises
`CubismError("Could not find boundary")`. -/
def get_boundary_ids_loop : List Material → String → Except PyErr (List Nat)
  | [], _ => .error (.cubism "Could not find boundary")
  | b :: bs, boundary_name =>
    if b.name = boundary_name then .ok (b.geometries.map (fun c => c.cid))
    else get_boundary_ids_loop bs boundary_name

/-- `MaterialsTracker.get_boundary_ids` (source lines 92-104). -/
def MaterialsTracker.get_boundary_ids (self : MaterialsTracker) (boundary_name : String) :
    Except PyErr (List Nat) :=
  get_boundary_ids_loop self.boundaries boundary_name

/-- The loop of `add_geometry_to_boundary` (source lines 117-121): append
the geometry to the FIRST boundary whose name matches; `none` when no
boundary matches (the caller then raises). -/
def addToFirst : List Material → String → GenericCubitInstance → Option (List Material)
  | [], _, _ => none
  | b :: bs, boundary_name, g =>
    if b.name = boundary_name then some ({ b with geometries := b.geometries ++ [g] } :: bs)
    else (addToFirst bs boundary_name g).map (fun t => b :: t)

/-- `MaterialsTracker.add_geometry_to_boundary` (source lines 106-121). -/
def MaterialsTracker.add_geometry_to_boundary (self : MaterialsTracker)
    (geometry : GenericCubitInstance) (boundary_name : String) :
    Except PyErr MaterialsTracker :=
  match addToFirst self.boundaries boundary_name geometry with
  | some bs => .ok { self with boundaries := bs }
  | none => .error (.cubism "Could not find boundary")

/-- In the source, `materials` and `boundaries` are CLASS-level attributes
of `MaterialsTracker` (source lines 31-33, with the comment "i think i want
materials to be tracked globally"). No method ever assigns
`self.materials = ...` or `self.boundaries = ...`; every access mutates the
lists in place, so Python attribute resolution always reaches the single
class-level pair of lists. An instance therefore carries no state of its
own; we model it as a bare token, and every method as a function of the one
shared `MaterialsTracker` state. -/
structure TrackerInstance where
  instId : Nat
deriving DecidableEq

/-- `t.make_material(...)` called on a particular instance `t`: the
instance token plays no role, the shared class-level state is updated. -/
def inst_make_material (_t : TrackerInstance) (shared : MaterialsTracker)
    (material_name : String) (group_id : Nat) : MaterialsTracker :=
  shared.make_material material_name group_id

/-- `t.contains_material(...)` called on a particular instance `t`. -/
def inst_contains_material (_t : TrackerInstance) (shared : MaterialsTracker)
    (material_name : String) : Bool :=
  shared.contains_material material_name

/-- One step of the outer loop of `sort_materials_into_pairs` (source lines
85-89): the accumulator is the pair `(pair_list, min_counter)`; the inner
loop runs `j` over `range(len(self.materials))` and appends
`(self.materials[i], self.materials[j])` whenever `j > min_counter`;
`min_counter` is incremented after the inner loop. -/
def sort_outer_step (mats : List Material) (acc : List (Material × Material) × Nat)
    (i : Nat) : List (Material × Material) × Nat :=
  ((List.range mats.length).foldl
      (fun pl j =>
        if acc.2 < j then pl ++ [(mats.getD i default, mats.getD j default)] else pl)
      acc.1,
    acc.2 + 1)

/-- `MaterialsTracker.sort_materials_into_pairs` (source lines 76-90):
`pair_list` starts empty, `min_counter` starts at 0, the outer loop runs
`i` over `range(len(self.materials))`. -/
def MaterialsTracker.sort_materials_into_pairs (self : MaterialsTracker) :
    List (Material × Material) :=
  ((List.range self.materials.length).foldl (sort_outer_step self.materials) ([], 0)).1

/-- `MaterialsTracker.__track_as_boundary` (source lines 169-173): append a
fresh boundary record, then add every surface the kernel reports as a
member of the group, as a surface-kind entity, via
`add_geometry_to_boundary`. -/
def MaterialsTracker.track_as_boundary (self : MaterialsTracker) (k : Kernel)
    (group_name : String) (group_id : Nat) : Except PyErr MaterialsTracker :=
  let st : MaterialsTracker :=
    { self with boundaries := self.boundaries ++ [⟨group_name, group_id, [], ""⟩] }
  (k.get_group_surfaces group_id).foldlM
    (fun st2 group_surface_id =>
      st2.add_geometry_to_boundary ⟨group_surface_id, .surface⟩ group_name)
    st

/-- `MaterialsTracker.__merge_and_track_between` (source lines 156-167):
attempt the kernel merge of the two materials' groups; if a new group is
produced, rename it (kernel side only) and track it as a boundary named
`"<name1>_<name2>"`; otherwise return with no state change. -/
def MaterialsTracker.merge_and_track_between (self : MaterialsTracker) (k : Kernel)
    (material1 material2 : Material) : Except PyErr MaterialsTracker :=
  let group_name := material1.name ++ "_" ++ material2.name
  match k.merge_groups material1.group_id material2.group_id with
  | some group_id => self.track_as_boundary k group_name group_id
  | none => .ok self

/-- One step of the ambient ("_air") loop of `merge_and_track_boundaries`
(source lines 141-152): unconditionally create and append the
`"<name>_air"` boundary record, then add each of the material's surfaces
that is in the unmerged set to the boundary of that name. -/
def ambient_step (k : Kernel) (all_unmerged_surfaces : List Nat)
    (st : MaterialsTracker) (material : Material) : Except PyErr MaterialsTracker :=
  let boundary_name := material.name ++ "_air"
  let boundary_id := k.create_group_check boundary_name
  let st1 : MaterialsTracker :=
    { st with boundaries := st.boundaries ++ [⟨boundary_name, boundary_id, [], ""⟩] }
  (material.get_surface_ids k).foldlM
    (fun st2 material_surface_id =>
      if material_surface_id ∈ all_unmerged_surfaces then
        st2.add_geometry_to_boundary ⟨material_surface_id, .surface⟩ boundary_name
      else pure st2)
    st1

/-- The ambient pass of `merge_and_track_boundaries` (source lines
134-154): query the unmerged-surface set, then run `ambient_step` for
every tracked material. -/
def ambient_pass (k : Kernel) (all_unmerged_surfaces : List Nat)
    (s : MaterialsTracker) : Except PyErr MaterialsTracker :=
  s.materials.foldlM (ambient_step k all_unmerged_surfaces) s

/-- `MaterialsTracker.merge_and_track_boundaries` (source lines 123-154):
compute the pair list, self-merge every material, merge every pair, then
run the ambient pass against the kernel's unmerged-surface set. -/
def MaterialsTracker.merge_and_track_boundaries (self : MaterialsTracker) (k : Kernel) :
    Except PyErr MaterialsTracker := do
  let pair_list := self.sort_materials_into_pairs
  let st1 ← self.materials.foldlM
    (fun st material => st.merge_and_track_between k material material) self
  let st2 ← pair_list.foldlM
    (fun st pair => st.merge_and_track_between k pair.1 pair.2) st1
  ambient_pass k k.all_unmerged_surfaces st2

/-- The inner loop of `update_tracking_list` (source lines 237-241) for one
already-fetched `geometry`: scan `old_instances`; on a (kind, id) match,
`list.remove` the geometry (the `isinstance` guard always holds in this
typed embedding). `removed` records whether the removal already happened:
`GenericCubitInstance` defines no `__eq__`, so Python's `list.remove` finds
the element by identity, and a SECOND matching old instance makes
`remove` raise `ValueError` because the identical object is gone. The
returned `Bool` says whether the caller must erase the element. -/
def utl_inner (geometry : GenericCubitInstance) (removed : Bool) :
    List GenericCubitInstance → Except PyErr Bool
  | [] => .ok removed
  | o :: os =>
    if geometry.geometry_type = o.geometry_type ∧ geometry.cid = o.cid then
      if removed then .error (.valueError "list.remove(x): x not in list")
      else utl_inner geometry true os
    else utl_inner geometry removed os

/-- The outer loop of `update_tracking_list` (source lines 236-241),
embedded with CPython's list-iterator semantics: the iterator keeps an
index into the (mutated) list; each step reads `geoms[idx]` and increments
the index; removing the current element shifts the tail left, so the
element that moves into the current slot is SKIPPED. `fuel` only bounds the
recursion: the index grows by one each step while the list never grows, so
`fuel = geoms.length` steps always reach the end exactly as the Python
loop does. -/
def utl_outer (old_instances : List GenericCubitInstance) :
    Nat → List GenericCubitInstance → Nat → Except PyErr (List GenericCubitInstance)
  | 0, geoms, _ => .ok geoms
  | fuel + 1, geoms, idx =>
    if h : idx < geoms.length then
      match utl_inner (geoms.get ⟨idx, h⟩) false old_instances with
      | .error e => .error e
      | .ok true => utl_outer old_instances fuel (geoms.eraseIdx idx) (idx + 1)
      | .ok false => utl_outer old_instances fuel geoms (idx + 1)
    else .ok geoms

/-- `MaterialsTracker.update_tracking_list` (source lines 224-245): for
every material whose name matches, run the removal loops over its
geometries, then append every new instance (the `isinstance` guard always
holds in this typed embedding). -/
def MaterialsTracker.update_tracking_list (self : MaterialsTracker)
    (old_instances new_instances : List GenericCubitInstance) (material_name : String) :
    Except PyErr MaterialsTracker := do
  let ms ← self.materials.mapM (fun material =>
    if material.name = material_name then do
      let gs ← utl_outer old_instances material.geometries.length material.geometries 0
      pure { material with geometries := gs ++ new_instances }
    else pure material)
  pure { self with materials := ms }

/-- The invariant of claim C9: every geometry of every boundary record is a
surface-kind entity. -/
def surface_only (s : MaterialsTracker) : Prop :=
  ∀ b ∈ s.boundaries, ∀ g ∈ b.geometries, g.geometry_type = .surface

/-- The boundary record that the ambient pass produces for one material:
named `"<name>_air"`, holding exactly the material's surfaces that are in
the unmerged set, in reported order, as surface-kind entities. -/
def air_boundary_record (k : Kernel) (all_unmerged_surfaces : List Nat)
    (m : Material) : Material :=
  { name := m.name ++ "_air",
    group_id := k.create_group_check (m.name ++ "_air"),
    geometries :=
      ((m.get_surface_ids k).filter (fun sid => decide (sid ∈ all_unmerged_surfaces))).map
        (fun sid => ⟨sid, .surface⟩),
    state_of_matter := "" }

/-- Reference enumeration of the unordered pairs of a list, head paired
with every later element first: the standard `i < j` combination list,
used to characterise `sort_materials_into_pairs`. -/
def pairsRec : List Material → List (Material × Material)
  | [] => []
  | x :: xs => xs.map (fun y => (x, y)) ++ pairsRec xs

/-- What the outer loop of `sort_materials_into_pairs` contributes for the
remaining outer indices `L` when the counter currently holds `c`: for each
index `i`, the pairs `(materials[i], materials[j])` for every `j` in range
with `c < j`, with the counter incremented between indices. -/
def outerSpec (mats : List Material) : List Nat → Nat → List (Material × Material)
  | [], _ => []
  | i :: L, c =>
      ((List.range mats.length).filter (fun j => decide (c < j))).map
          (fun j => (mats.getD i default, mats.getD j default))
        ++ outerSpec mats L (c + 1)

/-! ### Concrete states and kernel oracles used by witnesses and
counterexamples -/

/-- A concrete kernel oracle: merging groups 1 and 2 produces group 9 with
surfaces `[7, 8]`; every other merge produces nothing; the decomposition
query returns the geometries unchanged (they are used as surfaces where
needed); created groups get id 0; nothing is unmerged. -/
def kEx : Kernel where
  get_id_from_name := fun _ => 0
  merge_groups := fun a b => if a == 1 && b == 2 then some 9 else none
  get_group_surfaces := fun g => if g == 9 then [7, 8] else []
  create_group_check := fun _ => 0
  from_bodies_and_volumes_to_surfaces := fun gs => gs
  all_unmerged_surfaces := []

/-- Material "steel" with volume entity 101 in group 1. -/
def steelEx : Material := ⟨"steel", 1, [⟨101, .volume⟩], ""⟩

/-- Material "tungsten" with volume entity 102 in group 2. -/
def tungstenEx : Material := ⟨"tungsten", 2, [⟨102, .volume⟩], ""⟩

/-- Tracker holding steel and tungsten, no boundaries yet. -/
def sST : MaterialsTracker := ⟨[steelEx, tungstenEx], []⟩

/-- Material "A" with surfaces 1, 2, 3 (spec P6 scenario). -/
def matA : Material := ⟨"A", 1, [⟨1, .surface⟩, ⟨2, .surface⟩, ⟨3, .surface⟩], ""⟩

/-- Material "B" with surfaces 3, 4 (spec P6 scenario). -/
def matB : Material := ⟨"B", 2, [⟨3, .surface⟩, ⟨4, .surface⟩], ""⟩

/-- Tracker for the claim C7 failing input: material "m" tracks the two
volume entities 1 and 2, which are consecutive in its geometry list. -/
def c7_state : MaterialsTracker := ⟨[⟨"m", 1, [⟨1, .volume⟩, ⟨2, .volume⟩], ""⟩], []⟩

/-- Three distinct materials for the claim C2 witness. -/
def s3 : MaterialsTracker := ⟨[⟨"A", 1, [], ""⟩, ⟨"B", 2, [], ""⟩, ⟨"C", 3, [], ""⟩], []⟩

/-! ### Basic lemmas about registration -/

theorem make_material_mem_name (s : MaterialsTracker) (material_name : String) (gid : Nat) :
    material_name ∈ (s.make_material material_name gid).materials.map (fun i => i.name) := by
  unfold MaterialsTracker.make_material
  by_cases h : material_name ∈ s.materials.map (fun i => i.name)
  · simp [h]
  · simp [h]

theorem make_material_nodup (s : MaterialsTracker) (material_name : String) (gid : Nat)
    (h : (s.materials.map (fun i => i.name)).Nodup) :
    ((s.make_material material_name gid).materials.map (fun i => i.name)).Nodup := by
  unfold MaterialsTracker.make_material
  by_cases hmem : material_name ∈ s.materials.map (fun i => i.name)
  · simpa [hmem] using h
  · simp only [hmem, if_false]
    simpa [List.nodup_append, h] using hmem

theorem contains_after_make (s : MaterialsTracker) (material_name : String) (gid : Nat) :
    (s.make_material material_name gid).contains_material material_name = true := by
  have h := make_material_mem_name s material_name gid
  simp [MaterialsTracker.contains_material, h]

/-! ### Lemmas about boundary lookup and filling -/

theorem addToFirst_fresh (bs : List Material) (bname : String) (gid : Nat)
    (gs : List GenericCubitInstance) (stm : String) (x : GenericCubitInstance)
    (h : ∀ b ∈ bs, b.name ≠ bname) :
    addToFirst (bs ++ [⟨bname, gid, gs, stm⟩]) bname x
      = some (bs ++ [⟨bname, gid, gs ++ [x], stm⟩]) := by
  induction bs with
  | nil => simp [addToFirst]
  | cons b bs ih =>
    have hb : b.name ≠ bname := h b (by simp)
    have ih' := ih (fun b' hb' => h b' (List.mem_cons_of_mem _ hb'))
    simp only [List.cons_append, addToFirst, if_neg hb, List.append_eq]
    rw [ih']
    rfl

theorem get_loop_append_fresh (bs : List Material) (bname : String) (gid : Nat)
    (gs : List GenericCubitInstance) (stm : String)
    (h : ∀ b ∈ bs, b.name ≠ bname) :
    get_boundary_ids_loop (bs ++ [⟨bname, gid, gs, stm⟩]) bname
      = .ok (gs.map (fun c => c.cid)) := by
  induction bs with
  | nil => simp [get_boundary_ids_loop]
  | cons b bs ih =>
    have hb : b.name ≠ bname := h b (by simp)
    have ih' := ih (fun b' hb' => h b' (List.mem_cons_of_mem _ hb'))
    simp only [List.cons_append, get_boundary_ids_loop, if_neg hb, List.append_eq]
    rw [ih']

theorem boundary_fill (M bs : List Material) (bname : String) (gid : Nat)
    (gs : List GenericCubitInstance) (stm : String) (sids : List Nat)
    (h : ∀ b ∈ bs, b.name ≠ bname) :
    sids.foldlM
        (fun st2 group_surface_id =>
          MaterialsTracker.add_geometry_to_boundary st2 ⟨group_surface_id, .surface⟩ bname)
        (⟨M, bs ++ [⟨bname, gid, gs, stm⟩]⟩ : MaterialsTracker)
      = .ok ⟨M, bs ++ [⟨bname, gid,
          gs ++ sids.map (fun sid => ⟨sid, .surface⟩), stm⟩]⟩ := by
  induction sids generalizing gs with
  | nil => simp only [List.foldlM, List.map_nil, List.append_nil]; rfl
  | cons sid rest ih =>
    have hstep : MaterialsTracker.add_geometry_to_boundary
        (⟨M, bs ++ [⟨bname, gid, gs, stm⟩]⟩ : MaterialsTracker) ⟨sid, .surface⟩ bname
        = .ok ⟨M, bs ++ [⟨bname, gid, gs ++ [⟨sid, .surface⟩], stm⟩]⟩ := by
      unfold MaterialsTracker.add_geometry_to_boundary
      rw [show (⟨M, bs ++ [⟨bname, gid, gs, stm⟩]⟩ : MaterialsTracker).boundaries
            = bs ++ [⟨bname, gid, gs, stm⟩] from rfl,
          addToFirst_fresh bs bname gid gs stm _ h]
    simp only [List.foldlM, hstep, bind, Except.bind]
    rw [ih (gs ++ [(⟨sid, EntityKind.surface⟩ : GenericCubitInstance)])]
    simp

theorem ambient_fill (unm : List Nat) (M bs : List Material) (bname : String)
    (gid : Nat) (gs : List GenericCubitInstance) (stm : String) (sids : List Nat)
    (h : ∀ b ∈ bs, b.name ≠ bname) :
    sids.foldlM
        (fun st2 material_surface_id =>
          if material_surface_id ∈ unm then
            MaterialsTracker.add_geometry_to_boundary st2 ⟨material_surface_id, .surface⟩ bname
          else pure st2)
        (⟨M, bs ++ [⟨bname, gid, gs, stm⟩]⟩ : MaterialsTracker)
      = .ok ⟨M, bs ++ [⟨bname, gid,
          gs ++ (sids.filter (fun sid => decide (sid ∈ unm))).map
            (fun sid => ⟨sid, .surface⟩), stm⟩]⟩ := by
  induction sids generalizing gs with
  | nil => simp only [List.foldlM, List.filter_nil, List.map_nil, List.append_nil]; rfl
  | cons sid rest ih =>
    by_cases hmem : sid ∈ unm
    · have hstep : MaterialsTracker.add_geometry_to_boundary
          (⟨M, bs ++ [⟨bname, gid, gs, stm⟩]⟩ : MaterialsTracker) ⟨sid, .surface⟩ bname
          = .ok ⟨M, bs ++ [⟨bname, gid, gs ++ [⟨sid, .surface⟩], stm⟩]⟩ := by
        unfold MaterialsTracker.add_geometry_to_boundary
        rw [show (⟨M, bs ++ [⟨bname, gid, gs, stm⟩]⟩ : MaterialsTracker).boundaries
              = bs ++ [⟨bname, gid, gs, stm⟩] from rfl,
            addToFirst_fresh bs bname gid gs stm _ h]
      simp only [List.foldlM, if_pos hmem, hstep, bind, Except.bind]
      rw [ih (gs ++ [(⟨sid, EntityKind.surface⟩ : GenericCubitInstance)])]
      simp [hmem]
    · simp only [List.foldlM, if_neg hmem, pure_bind]
      rw [ih gs]
      simp [hmem]

theorem ambient_step_run (k : Kernel) (unm : List Nat) (M bs : List Material) (m : Material)
    (h : ∀ b ∈ bs, b.name ≠ m.name ++ "_air") :
    ambient_step k unm (⟨M, bs⟩ : MaterialsTracker) m
      = .ok ⟨M, bs ++ [air_boundary_record k unm m]⟩ := by
  unfold ambient_step
  have := ambient_fill unm M bs (m.name ++ "_air")
    (k.create_group_check (m.name ++ "_air")) [] "" (m.get_surface_ids k) h
  simpa [air_boundary_record] using this

theorem ambient_pass_run (k : Kernel) (unm : List Nat) :
    ∀ (ms : List Material) (M bs : List Material),
      (∀ m ∈ ms, ∀ b ∈ bs, b.name ≠ m.name ++ "_air") →
      ((ms.map (fun m => m.name ++ "_air")).Nodup) →
      ms.foldlM (ambient_step k unm) (⟨M, bs⟩ : MaterialsTracker)
        = .ok ⟨M, bs ++ ms.map (air_boundary_record k unm)⟩ := by
  intro ms
  induction ms with
  | nil => intro M bs _ _; simp only [List.foldlM, List.map_nil, List.append_nil]; rfl
  | cons m ms ih =>
    intro M bs hfresh hnd
    have hstep := ambient_step_run k unm M bs m (fun b hb => hfresh m (by simp) b hb)
    have hnd' : (ms.map (fun m2 => m2.name ++ "_air")).Nodup := by
      simpa using hnd.of_cons
    have hfresh' : ∀ m2 ∈ ms, ∀ b ∈ bs ++ [air_boundary_record k unm m],
        b.name ≠ m2.name ++ "_air" := by
      intro m2 hm2 b hb
      rcases List.mem_append.mp hb with hb1 | hb2
      · exact hfresh m2 (List.mem_cons_of_mem _ hm2) b hb1
      · have hb3 : b = air_boundary_record k unm m := by simpa using hb2
        subst hb3
        have hne : m.name ++ "_air" ∉ ms.map (fun m2 => m2.name ++ "_air") :=
          (List.nodup_cons.mp hnd).1
        intro hcontra
        exact hne (by
          rw [show (air_boundary_record k unm m).name = m.name ++ "_air" from rfl] at hcontra
          rw [hcontra]
          exact List.mem_map_of_mem _ hm2)
    simp only [List.foldlM, hstep, bind, Except.bind]
    rw [ih M (bs ++ [air_boundary_record k unm m]) hfresh' hnd']
    simp

/-! ### Claim C1 -/

/-- C1: the spec says that when, after the ensure-step, no material of the
given name can be found, `add_geometry_to_material` fails by RAISING a
fatal error. Evaluating the lookup-and-append phase of the source at such a
state (a materials list without "steel") shows the source instead RETURNS
the `CubismError` object as an ordinary value (source line 64 is
`return CubismError("Could not add component")`, while the method's own
docstring promises "True or raises error"). The branch is unreachable
through the public method, since `make_material` has just ensured the
record, but the behaviour the claim attributes to it is wrong. -/
theorem claim_C1 :
    add_geometry_find_phase ⟨1, .volume⟩ "steel" [⟨"iron", 4, [], ""⟩]
      = ([⟨"iron", 4, [], ""⟩],
         .returned (.errorValue "Could not add component")) := by
  rfl

/-- Supporting fact for C1 (not the claim theorem): the fall-through branch
is indeed unreachable through `add_geometry_to_material`, because
`make_material` guarantees a record of the requested name exists, so the
lookup phase always returns `True`. -/
theorem find_phase_returns_true (geometry : GenericCubitInstance) (material_name : String) :
    ∀ (ms : List Material), material_name ∈ ms.map (fun i => i.name) →
      (add_geometry_find_phase geometry material_name ms).2 = .returned .boolTrue := by
  intro ms
  induction ms with
  | nil => intro hmem; simp at hmem
  | cons m ms ih =>
    intro hmem
    by_cases hname : m.name = material_name
    · simp [add_geometry_find_phase, hname]
    · have hmem' : material_name ∈ ms.map (fun i => i.name) := by
        rcases List.mem_map.mp hmem with ⟨x, hx, hxe⟩
        rcases List.mem_cons.mp hx with h1 | h2
        · exact absurd (h1 ▸ hxe) hname
        · exact hxe ▸ List.mem_map_of_mem _ h2
      simp only [add_geometry_find_phase, if_neg hname]
      exact ih hmem'

theorem add_geometry_to_material_never_falls_through
    (s : MaterialsTracker) (k : Kernel) (geometry : GenericCubitInstance)
    (material_name : String) :
    (s.add_geometry_to_material k geometry material_name).2
      = .returned .boolTrue :=
  find_phase_returns_true geometry material_name _
    (make_material_mem_name s material_name (k.get_id_from_name material_name))

/-! ### Claim C5 -/

/-- C5: when the kernel merge of the two materials' groups produces no new
group, `__merge_and_track_between` makes no state change: the tracker (in
particular its `boundaries` list) is returned unchanged and no error is
raised. -/
theorem claim_C5 (s : MaterialsTracker) (k : Kernel) (material1 material2 : Material)
    (h : k.merge_groups material1.group_id material2.group_id = none) :
    s.merge_and_track_between k material1 material2 = .ok s := by
  unfold MaterialsTracker.merge_and_track_between
  rw [h]

/-- Witness for C5: merging steel with itself under the concrete kernel
(which only merges groups 1 and 2) changes nothing. -/
theorem claim_C5_witness :
    sST.merge_and_track_between kEx steelEx steelEx = .ok sST :=
  claim_C5 sST kEx steelEx steelEx (by rfl)

/-! ### Claim C3 -/

/-- Counterexample for C3: a material ("A", all of whose surfaces are
merged: the unmerged set is empty) still gets a `"A_air"` boundary record,
with empty geometries, because the source appends the record
unconditionally before scanning the surfaces (source line 145). The claim
says such a material gets NO `"<material>_air"` boundary record. -/
theorem claim_C3_counterexample :
    ambient_pass kEx [] ⟨[matA], []⟩ = .ok ⟨[matA], [⟨"A_air", 0, [], ""⟩]⟩
    ∧ "A_air" ∈ [(⟨"A_air", 0, [], ""⟩ : Material)].map (fun b => b.name) := by
  constructor
  · rfl
  · simp

/-- C3 as amended: in the ambient pass, EVERY tracked material gets a
`"<material>_air"` boundary record (created unconditionally, so a material
none of whose surfaces are unmerged gets an empty record), and each record
ends up containing exactly those of the material's surfaces that the
kernel reports as unmerged, in order, as surface-kind entities. Stated for
any state in which no pre-existing boundary already uses one of the
`"_air"` names and the air names are distinct (which `make_material`'s name
uniqueness guarantees for real runs). -/
theorem claim_C3 (k : Kernel) (unm : List Nat) (s : MaterialsTracker)
    (hfresh : ∀ m ∈ s.materials, ∀ b ∈ s.boundaries, b.name ≠ m.name ++ "_air")
    (hnd : (s.materials.map (fun m => m.name ++ "_air")).Nodup) :
    ambient_pass k unm s
      = .ok ⟨s.materials, s.boundaries ++ s.materials.map (air_boundary_record k unm)⟩ := by
  unfold ambient_pass
  exact ambient_pass_run k unm s.materials s.materials s.boundaries hfresh hnd

/-- Witness for C3 (the spec's P6 scenario): materials A (surfaces 1,2,3)
and B (surfaces 3,4) with unmerged set {1,2,4} produce `A_air` holding
surfaces 1,2 and `B_air` holding surface 4. -/
theorem claim_C3_witness :
    ambient_pass kEx [1, 2, 4] ⟨[matA, matB], []⟩
      = .ok ⟨[matA, matB],
          [⟨"A_air", 0, [⟨1, .surface⟩, ⟨2, .surface⟩], ""⟩,
           ⟨"B_air", 0, [⟨4, .surface⟩], ""⟩]⟩ := by
  have h := claim_C3 kEx [1, 2, 4] ⟨[matA, matB], []⟩ (by simp) (by decide)
  exact h

/-! ### Claim C4 -/

/-- C4: when the kernel merge of the groups of `material1` and `material2`
produces a new group, `__merge_and_track_between` registers a new Boundary
named `"<name1>_<name2>"` whose geometries are exactly the surfaces the
kernel reports as members of the new group, in reported order, and
`get_boundary_ids` of that name returns those surface ids in order. -/
theorem claim_C4 (s : MaterialsTracker) (k : Kernel) (material1 material2 : Material)
    (gid : Nat)
    (hmerge : k.merge_groups material1.group_id material2.group_id = some gid)
    (hfresh : ∀ b ∈ s.boundaries, b.name ≠ material1.name ++ "_" ++ material2.name) :
    s.merge_and_track_between k material1 material2
        = .ok ⟨s.materials, s.boundaries ++
            [⟨material1.name ++ "_" ++ material2.name, gid,
              (k.get_group_surfaces gid).map (fun sid => ⟨sid, .surface⟩), ""⟩]⟩
    ∧ MaterialsTracker.get_boundary_ids
        ⟨s.materials, s.boundaries ++
            [⟨material1.name ++ "_" ++ material2.name, gid,
              (k.get_group_surfaces gid).map (fun sid => ⟨sid, .surface⟩), ""⟩]⟩
        (material1.name ++ "_" ++ material2.name)
        = .ok (k.get_group_surfaces gid) := by
  constructor
  · unfold MaterialsTracker.merge_and_track_between
    rw [hmerge]
    unfold MaterialsTracker.track_as_boundary
    have h := boundary_fill s.materials s.boundaries
      (material1.name ++ "_" ++ material2.name) gid [] ""
      (k.get_group_surfaces gid) hfresh
    simpa using h
  · unfold MaterialsTracker.get_boundary_ids
    have h := get_loop_append_fresh s.boundaries
      (material1.name ++ "_" ++ material2.name) gid
      ((k.get_group_surfaces gid).map (fun sid => ⟨sid, .surface⟩)) "" hfresh
    rw [show (⟨s.materials, s.boundaries ++
          [⟨material1.name ++ "_" ++ material2.name, gid,
            (k.get_group_surfaces gid).map (fun sid => ⟨sid, .surface⟩), ""⟩]⟩
          : MaterialsTracker).boundaries
        = s.boundaries ++
          [⟨material1.name ++ "_" ++ material2.name, gid,
            (k.get_group_surfaces gid).map (fun sid => ⟨sid, .surface⟩), ""⟩] from rfl, h]
    rw [List.map_map,
      show ((fun c => c.cid) ∘ fun sid =>
          ({ cid := sid, geometry_type := EntityKind.surface } : GenericCubitInstance)) = id
        from rfl,
      List.map_id]

/-- Witness for C4 (the spec's scenario): merging steel's group 1 with
tungsten's group 2 produces group 9 with surfaces [7, 8]; the boundary
"steel_tungsten" is registered with those surfaces and
`get_boundary_ids("steel_tungsten")` returns [7, 8]. -/
theorem claim_C4_witness :
    sST.merge_and_track_between kEx steelEx tungstenEx
        = .ok ⟨[steelEx, tungstenEx],
            [⟨"steel_tungsten", 9, [⟨7, .surface⟩, ⟨8, .surface⟩], ""⟩]⟩
    ∧ MaterialsTracker.get_boundary_ids
        ⟨[steelEx, tungstenEx],
            [⟨"steel_tungsten", 9, [⟨7, .surface⟩, ⟨8, .surface⟩], ""⟩]⟩
        "steel_tungsten" = .ok [7, 8] := by
  have h := claim_C4 sST kEx steelEx tungstenEx 9 (by rfl) (by simp [sST])
  exact h

/-! ### Claim C6 -/

/-- C6: for every sequence of `make_material` calls starting from the
initial (empty) registry the material names stay pairwise distinct; a call
whose name is already present leaves the whole state unchanged (whatever
group id is passed); a call with a fresh name appends exactly one new
Material carrying that name and group id. -/
theorem claim_C6 :
    (∀ (calls : List (String × Nat)),
        ((calls.foldl (fun s c => s.make_material c.1 c.2) initial_tracker).materials.map
            (fun i => i.name)).Nodup)
    ∧ (∀ (s : MaterialsTracker) (material_name : String) (gid : Nat),
        material_name ∈ s.materials.map (fun i => i.name) →
          s.make_material material_name gid = s)
    ∧ ∀ (s : MaterialsTracker) (material_name : String) (gid : Nat),
        material_name ∉ s.materials.map (fun i => i.name) →
          (s.make_material material_name gid).materials
            = s.materials ++ [⟨material_name, gid, [], ""⟩] := by
  refine ⟨?fold, ?present, ?absent⟩
  case fold =>
    intro calls
    have gen : ∀ (cs : List (String × Nat)) (s : MaterialsTracker),
        ((s.materials.map (fun i => i.name)).Nodup) →
        (((cs.foldl (fun s2 c => s2.make_material c.1 c.2) s).materials.map
            (fun i => i.name)).Nodup) := by
      intro cs
      induction cs with
      | nil => intro s hs; exact hs
      | cons c cs ih =>
        intro s hs
        exact ih (s.make_material c.1 c.2) (make_material_nodup s c.1 c.2 hs)
    exact gen calls initial_tracker (by simp [initial_tracker])
  case present =>
    intro s material_name gid hmem
    unfold MaterialsTracker.make_material
    rw [if_pos hmem]
  case absent =>
    intro s material_name gid hmem
    unfold MaterialsTracker.make_material
    rw [if_neg hmem]

/-- Witness for C6: with "a" already registered (group 1), registering "a"
again with a different group id (2) changes nothing; and a fold of calls
with a repeated name yields distinct names. -/
theorem claim_C6_witness :
    (initial_tracker.make_material "a" 1).make_material "a" 2
        = initial_tracker.make_material "a" 1
    ∧ (([("a", 1), ("a", 2), ("b", 3)].foldl
          (fun s c => s.make_material c.1 c.2) initial_tracker).materials.map
        (fun i => i.name)).Nodup :=
  ⟨claim_C6.2.1 (initial_tracker.make_material "a" 1) "a" 2 (by decide),
   claim_C6.1 [("a", 1), ("a", 2), ("b", 3)]⟩

/-! ### Claim C7 -/

/-- C7: the claim says every tracked geometry matching some member of
`old_instances` is removed. Evaluating `update_tracking_list` at material
"m" tracking the consecutive entities (volume,1), (volume,2) with BOTH
listed in `old_instances` shows (volume,2) survives: removing (volume,1)
during iteration shifts the list left and the Python iterator skips
(volume,2). The method's docstring ("remove and adds references to
specified GenericCubitInstances") and the spec agree that both should have
been removed, so this is a code bug. -/
theorem claim_C7 :
    c7_state.update_tracking_list [⟨1, .volume⟩, ⟨2, .volume⟩] [] "m"
      = .ok ⟨[⟨"m", 1, [⟨2, .volume⟩], ""⟩], []⟩ := by
  rfl

/-! ### Claim C8 -/

/-- C8: `get_boundary_ids` returns the ids of the (first) tracked boundary
of the given name, in order, and raises `CubismError("Could not find
boundary")` — the spec's `NotFoundError` — when no tracked boundary has
that name. -/
theorem claim_C8 (s : MaterialsTracker) (boundary_name : String) :
    s.get_boundary_ids boundary_name
      = match s.boundaries.find? (fun b => b.name == boundary_name) with
        | some b => .ok (b.geometries.map (fun c => c.cid))
        | none => .error (.cubism "Could not find boundary") := by
  unfold MaterialsTracker.get_boundary_ids
  induction s.boundaries with
  | nil => simp [get_boundary_ids_loop, List.find?]
  | cons b bs ih =>
    by_cases h : b.name = boundary_name
    · have hb : (b.name == boundary_name) = true := by simp [h]
      simp [get_boundary_ids_loop, List.find?, h, hb]
    · have hb : (b.name == boundary_name) = false := by simp [h]
      simp only [get_boundary_ids_loop, if_neg h, List.find?, hb]
      exact ih

/-- The spec scenario for C8, as a plain corollary of the evaluation:
`get_boundary_ids("nonexistent")` on a fresh tracker raises. (Not the
claim theorem; claim C8's theorem is `claim_C8` above.) -/
theorem get_boundary_ids_nonexistent :
    initial_tracker.get_boundary_ids "nonexistent"
      = .error (.cubism "Could not find boundary") := by
  rfl

/-! ### Claim C10 -/

/-- C10: `materials`/`boundaries` are class-level attributes, so all
tracker instances share one state: a `make_material` through any instance
`t1` is observed by `contains_material` through any other instance `t2`,
and every method's effect is independent of the instance it is called
on. -/
theorem claim_C10 (t1 t2 : TrackerInstance) (s : MaterialsTracker)
    (material_name : String) (gid : Nat) :
    inst_contains_material t2 (inst_make_material t1 s material_name gid) material_name = true
    ∧ inst_make_material t1 s material_name gid = inst_make_material t2 s material_name gid :=
  ⟨contains_after_make s material_name gid, rfl⟩

/-! ### Claim C9: surface-only boundaries -/

theorem foldlM_preserve {α : Type} (P : MaterialsTracker → Prop)
    (step : MaterialsTracker → α → Except PyErr MaterialsTracker)
    (hstep : ∀ st x st', P st → step st x = .ok st' → P st') :
    ∀ (l : List α) (st st'), P st → l.foldlM step st = .ok st' → P st' := by
  intro l
  induction l with
  | nil =>
    intro st st' hP hrun
    simp only [List.foldlM] at hrun
    cases hrun
    exact hP
  | cons x l ih =>
    intro st st' hP hrun
    simp only [List.foldlM] at hrun
    cases hx : step st x with
    | error e => rw [hx] at hrun; simp [bind, Except.bind] at hrun
    | ok st1 =>
      rw [hx] at hrun
      simp only [bind, Except.bind] at hrun
      exact ih st1 st' (hstep st x st1 hP hx) hrun

theorem addToFirst_surface {bs bs' : List Material} {bname : String}
    {g : GenericCubitInstance}
    (hb : ∀ b ∈ bs, ∀ x ∈ b.geometries, x.geometry_type = .surface)
    (hg : g.geometry_type = .surface)
    (h : addToFirst bs bname g = some bs') :
    ∀ b ∈ bs', ∀ x ∈ b.geometries, x.geometry_type = .surface := by
  induction bs generalizing bs' with
  | nil => simp [addToFirst] at h
  | cons b bs ih =>
    by_cases hn : b.name = bname
    · simp only [addToFirst, if_pos hn, Option.some.injEq] at h
      subst h
      intro b' hb' x hx
      rcases List.mem_cons.mp hb' with h1 | h2
      · subst h1
        rcases List.mem_append.mp hx with h3 | h4
        · exact hb b (by simp) x h3
        · have : x = g := by simpa using h4
          exact this ▸ hg
      · exact hb b' (List.mem_cons_of_mem _ h2) x hx
    · simp only [addToFirst, if_neg hn] at h
      cases ht : addToFirst bs bname g with
      | none => rw [ht] at h; simp at h
      | some t =>
        rw [ht] at h
        simp at h
        subst h
        intro b' hb' x hx
        rcases List.mem_cons.mp hb' with h1 | h2
        · exact hb b' (h1 ▸ by simp) x hx
        · exact ih (fun b2 hb2 => hb b2 (List.mem_cons_of_mem _ hb2)) ht b' h2 x hx

theorem add_geometry_to_boundary_surface {st st' : MaterialsTracker}
    {g : GenericCubitInstance} {bname : String}
    (hP : surface_only st) (hg : g.geometry_type = .surface)
    (h : st.add_geometry_to_boundary g bname = .ok st') : surface_only st' := by
  unfold MaterialsTracker.add_geometry_to_boundary at h
  cases ha : addToFirst st.boundaries bname g with
  | none => rw [ha] at h; simp at h
  | some bs =>
    rw [ha] at h
    simp only [Except.ok.injEq] at h
    subst h
    exact addToFirst_surface hP hg ha

theorem track_as_boundary_surface {st st' : MaterialsTracker} {k : Kernel}
    {gname : String} {gid : Nat}
    (hP : surface_only st)
    (h : st.track_as_boundary k gname gid = .ok st') : surface_only st' := by
  unfold MaterialsTracker.track_as_boundary at h
  have hP1 : surface_only
      ({ st with boundaries := st.boundaries ++ [⟨gname, gid, [], ""⟩] } : MaterialsTracker) := by
    intro b hb x hx
    rcases List.mem_append.mp hb with h1 | h2
    · exact hP b h1 x hx
    · have : b = (⟨gname, gid, [], ""⟩ : Material) := by simpa using h2
      subst this
      simp at hx
  exact foldlM_preserve surface_only _
    (fun st1 sid st2 hp hrun => add_geometry_to_boundary_surface hp rfl hrun)
    (k.get_group_surfaces gid) _ st' hP1 h

theorem merge_and_track_between_surface {st st' : MaterialsTracker} {k : Kernel}
    {m1 m2 : Material}
    (hP : surface_only st)
    (h : st.merge_and_track_between k m1 m2 = .ok st') : surface_only st' := by
  unfold MaterialsTracker.merge_and_track_between at h
  cases hm : k.merge_groups m1.group_id m2.group_id with
  | none =>
    rw [hm] at h
    simp only [Except.ok.injEq] at h
    exact h ▸ hP
  | some gid =>
    rw [hm] at h
    exact track_as_boundary_surface hP h

theorem ambient_step_surface {st st' : MaterialsTracker} {k : Kernel}
    {unm : List Nat} {m : Material}
    (hP : surface_only st)
    (h : ambient_step k unm st m = .ok st') : surface_only st' := by
  unfold ambient_step at h
  have hP1 : surface_only
      ({ st with boundaries := st.boundaries ++
          [⟨m.name ++ "_air", k.create_group_check (m.name ++ "_air"), [], ""⟩] }
        : MaterialsTracker) := by
    intro b hb x hx
    rcases List.mem_append.mp hb with h1 | h2
    · exact hP b h1 x hx
    · have : b = (⟨m.name ++ "_air", k.create_group_check (m.name ++ "_air"), [], ""⟩
          : Material) := by simpa using h2
      subst this
      simp at hx
  refine foldlM_preserve surface_only _ ?_ (m.get_surface_ids k) _ st' hP1 h
  intro st1 sid st2 hp hrun
  by_cases hmem : sid ∈ unm
  · rw [if_pos hmem] at hrun
    exact add_geometry_to_boundary_surface hp rfl hrun
  · rw [if_neg hmem] at hrun
    cases hrun
    exact hp

/-- C9: under the precondition that boundary records are populated only by
the tracker's own merge and ambient-derivation operations — that is, the
starting state already satisfies the invariant and the run is a
`merge_and_track_boundaries` pass — every geometry of every Boundary record
in the resulting state is a surface-kind entity, whatever entity kinds the
source materials tracked. -/
theorem claim_C9 (s s' : MaterialsTracker) (k : Kernel)
    (hP : surface_only s)
    (hrun : s.merge_and_track_boundaries k = .ok s') : surface_only s' := by
  unfold MaterialsTracker.merge_and_track_boundaries at hrun
  cases h1 : s.materials.foldlM
      (fun st material => st.merge_and_track_between k material material) s with
  | error e => rw [h1] at hrun; simp [bind, Except.bind] at hrun
  | ok st1 =>
    rw [h1] at hrun
    simp only [bind, Except.bind] at hrun
    have hP1 : surface_only st1 :=
      foldlM_preserve surface_only _
        (fun st x st2 hp hr => merge_and_track_between_surface hp hr)
        s.materials s st1 hP h1
    cases h2 : (s.sort_materials_into_pairs).foldlM
        (fun st pair => st.merge_and_track_between k pair.1 pair.2) st1 with
    | error e => rw [h2] at hrun; simp at hrun
    | ok st2 =>
      rw [h2] at hrun
      have hP2 : surface_only st2 :=
        foldlM_preserve surface_only _
          (fun st x st3 hp hr => merge_and_track_between_surface hp hr)
          s.sort_materials_into_pairs st1 st2 hP1 h2
      unfold ambient_pass at hrun
      exact foldlM_preserve surface_only _
        (fun st x st3 hp hr => ambient_step_surface hp hr)
        st2.materials st2 s' hP2 hrun

/-- Witness for C9: a full `merge_and_track_boundaries` run over the
steel/tungsten state (volume-kind tracked entities) under the concrete
kernel leaves only surface-kind entities in every boundary record. -/
theorem claim_C9_witness :
    surface_only ⟨[steelEx, tungstenEx],
      [⟨"steel_tungsten", 9, [⟨7, .surface⟩, ⟨8, .surface⟩], ""⟩,
       ⟨"steel_air", 0, [], ""⟩,
       ⟨"tungsten_air", 0, [], ""⟩]⟩ :=
  claim_C9 sST _ kEx
    (by intro b hb; simp [sST] at hb)
    (by rfl)

/-! ### Claim C2: pair enumeration -/

theorem foldl_if_append {α : Type} (c : Nat) (g : Nat → α) :
    ∀ (L : List Nat) (acc : List α),
      L.foldl (fun pl j => if c < j then pl ++ [g j] else pl) acc
        = acc ++ (L.filter (fun j => decide (c < j))).map g := by
  intro L
  induction L with
  | nil => intro acc; simp
  | cons j L ih =>
    intro acc
    by_cases hj : c < j
    · simp only [List.foldl_cons, if_pos hj, List.filter_cons, decide_eq_true_eq, hj,
        if_true, List.map_cons]
      rw [ih]
      simp
    · simp only [List.foldl_cons, if_neg hj, List.filter_cons, decide_eq_true_eq, hj,
        if_false, List.map_cons]
      rw [ih]

theorem sort_outer_fold (mats : List Material) :
    ∀ (L : List Nat) (acc : List (Material × Material)) (c : Nat),
      L.foldl (sort_outer_step mats) (acc, c)
        = (acc ++ outerSpec mats L c, c + L.length) := by
  intro L
  induction L with
  | nil => intro acc c; simp [outerSpec]
  | cons i L ih =>
    intro acc c
    have hstep : sort_outer_step mats (acc, c) i
        = (acc ++ ((List.range mats.length).filter (fun j => decide (c < j))).map
            (fun j => (mats.getD i default, mats.getD j default)), c + 1) := by
      unfold sort_outer_step
      rw [foldl_if_append]
    rw [List.foldl_cons, hstep, ih]
    simp only [outerSpec, List.append_assoc, List.length_cons]
    have harith : c + 1 + L.length = c + (L.length + 1) := by omega
    rw [harith]

theorem range_filter_lt (c : Nat) : ∀ (n : Nat),
    (List.range n).filter (fun j => decide (c < j)) = List.range' (c + 1) (n - (c + 1)) := by
  intro n
  induction n with
  | zero => simp
  | succ n ih =>
    rw [List.range_succ, List.filter_append, ih]
    by_cases h : c < n
    · have h1 : List.filter (fun j => decide (c < j)) [n] = [n] := by simp [h]
      have h2 : n + 1 - (c + 1) = (n - (c + 1)) + 1 := by omega
      rw [h1, h2, List.range'_1_concat]
      have h3 : c + 1 + (n - (c + 1)) = n := by omega
      rw [h3]
    · have h1 : List.filter (fun j => decide (c < j)) [n] = [] := by simp [h]
      have h2 : n + 1 - (c + 1) = n - (c + 1) := by omega
      rw [h1, h2, List.append_nil]

theorem map_getD_range' (mats : List Material) :
    ∀ (m c : Nat), m = mats.length - c →
      (List.range' c m).map (fun j => mats.getD j default) = mats.drop c := by
  intro m
  induction m with
  | zero =>
    intro c hc
    rw [show List.range' c 0 = [] from rfl, List.map_nil,
      List.drop_eq_nil_of_le (by omega)]
  | succ m ih =>
    intro c hc
    have hlt : c < mats.length := by omega
    rw [List.range'_succ, List.map_cons, List.drop_eq_getElem_cons hlt,
      ih (c + 1) (by omega)]
    congr 1
    exact List.getD_eq_getElem mats default hlt

theorem outerSpec_eq_pairsRec (mats : List Material) :
    ∀ (m c : Nat), m = mats.length - c →
      outerSpec mats (List.range' c m) c = pairsRec (mats.drop c) := by
  intro m
  induction m with
  | zero =>
    intro c hc
    rw [show List.range' c 0 = [] from rfl, List.drop_eq_nil_of_le (by omega)]
    rfl
  | succ m ih =>
    intro c hc
    have hlt : c < mats.length := by omega
    rw [List.range'_succ]
    simp only [outerSpec]
    rw [range_filter_lt]
    have hmap : (List.range' (c + 1) (mats.length - (c + 1))).map
        (fun j => (mats.getD c default, mats.getD j default))
        = (mats.drop (c + 1)).map (fun y => (mats.getD c default, y)) := by
      rw [show (fun j => (mats.getD c default, mats.getD j default))
            = (fun y => (mats.getD c default, y)) ∘ (fun j => mats.getD j default)
          from rfl,
        ← List.map_map, map_getD_range' mats (mats.length - (c + 1)) (c + 1) rfl]
    rw [hmap, ih (c + 1) (by omega), List.drop_eq_getElem_cons hlt]
    simp only [pairsRec]
    rw [List.getD_eq_getElem mats default hlt]

theorem sort_eq_pairsRec (s : MaterialsTracker) :
    s.sort_materials_into_pairs = pairsRec s.materials := by
  unfold MaterialsTracker.sort_materials_into_pairs
  rw [List.range_eq_range', sort_outer_fold s.materials (List.range' 0 s.materials.length) [] 0]
  have h := outerSpec_eq_pairsRec s.materials s.materials.length 0 (by omega)
  simpa using h

theorem pairsRec_mem {l : List Material} {p : Material × Material}
    (h : p ∈ pairsRec l) : p.1 ∈ l ∧ p.2 ∈ l := by
  induction l with
  | nil => simp [pairsRec] at h
  | cons x xs ih =>
    simp only [pairsRec, List.mem_append] at h
    rcases h with h1 | h2
    · rcases List.mem_map.mp h1 with ⟨y, hy, hpe⟩
      subst hpe
      exact ⟨by simp, by simp [hy]⟩
    · rcases ih h2 with ⟨ha, hb⟩
      exact ⟨List.mem_cons_of_mem _ ha, List.mem_cons_of_mem _ hb⟩

theorem pairsRec_ne : ∀ (l : List Material), l.Nodup →
    ∀ p ∈ pairsRec l, p.1 ≠ p.2 := by
  intro l
  induction l with
  | nil => intro _ p hp; simp [pairsRec] at hp
  | cons x xs ih =>
    intro hl p hp
    have hx : x ∉ xs := (List.nodup_cons.mp hl).1
    simp only [pairsRec, List.mem_append] at hp
    rcases hp with h1 | h2
    · rcases List.mem_map.mp h1 with ⟨y, hy, hpe⟩
      subst hpe
      intro he
      simp only at he
      exact hx (he ▸ hy)
    · exact ih (List.nodup_cons.mp hl).2 p h2

theorem pairsRec_count_self {l : List Material} (hl : l.Nodup) (a : Material) :
    (pairsRec l).count (a, a) = 0 := by
  rw [List.count_eq_zero]
  intro hmem
  exact pairsRec_ne l hl (a, a) hmem rfl

theorem count_pair_map (x a b : Material) (xs : List Material) :
    (xs.map (fun y => (x, y))).count (a, b) = if a = x then xs.count b else 0 := by
  induction xs with
  | nil => simp
  | cons y ys ih =>
    simp only [List.map_cons, List.count_cons, ih]
    by_cases hax : a = x
    · subst hax
      by_cases hby : y = b
      · subst hby
        simp
      · simp [hby, beq_iff_eq]
    · have hxa : ¬ (x = a) := fun h2 => hax h2.symm
      simp [hax, hxa, beq_iff_eq]

theorem pairsRec_count_pair {a b : Material} (hab : a ≠ b) :
    ∀ (l : List Material), l.Nodup → a ∈ l → b ∈ l →
      (pairsRec l).count (a, b) + (pairsRec l).count (b, a) = 1 := by
  intro l
  induction l with
  | nil => intro _ ha _; simp at ha
  | cons x xs ih =>
    intro hl ha hb
    have hx : x ∉ xs := (List.nodup_cons.mp hl).1
    have hxs : xs.Nodup := (List.nodup_cons.mp hl).2
    simp only [pairsRec, List.count_append]
    rw [count_pair_map x a b xs, count_pair_map x b a xs]
    by_cases hax : a = x
    · subst hax
      have hbxs : b ∈ xs := by
        rcases List.mem_cons.mp hb with h1 | h2
        · exact absurd h1.symm hab
        · exact h2
      have h1 : (pairsRec xs).count (a, b) = 0 := by
        rw [List.count_eq_zero]
        intro hm
        exact hx (pairsRec_mem hm).1
      have h2 : (pairsRec xs).count (b, a) = 0 := by
        rw [List.count_eq_zero]
        intro hm
        exact hx (pairsRec_mem hm).2
      rw [if_pos rfl, if_neg (fun h => hab h.symm), h1, h2,
        List.count_eq_one_of_mem hxs hbxs]
    · by_cases hbx : b = x
      · subst hbx
        have haxs : a ∈ xs := by
          rcases List.mem_cons.mp ha with h1 | h2
          · exact absurd h1 hax
          · exact h2
        have h1 : (pairsRec xs).count (a, b) = 0 := by
          rw [List.count_eq_zero]
          intro hm
          exact hx (pairsRec_mem hm).2
        have h2 : (pairsRec xs).count (b, a) = 0 := by
          rw [List.count_eq_zero]
          intro hm
          exact hx (pairsRec_mem hm).1
        rw [if_neg hax, if_pos rfl, h1, h2, List.count_eq_one_of_mem hxs haxs]
      · have haxs : a ∈ xs := by
          rcases List.mem_cons.mp ha with h1 | h2
          · exact absurd h1 hax
          · exact h2
        have hbxs : b ∈ xs := by
          rcases List.mem_cons.mp hb with h1 | h2
          · exact absurd h1 hbx
          · exact h2
        rw [if_neg hax, if_neg hbx]
        have hih := ih hxs haxs hbxs
        omega

theorem pairsRec_two_mul_length : ∀ (l : List Material),
    2 * (pairsRec l).length = l.length * (l.length - 1) := by
  intro l
  induction l with
  | nil => simp [pairsRec]
  | cons x xs ih =>
    simp only [pairsRec, List.length_append, List.length_map, List.length_cons,
      Nat.add_sub_cancel]
    have hsplit : 2 * (xs.length + (pairsRec xs).length)
        = 2 * xs.length + 2 * (pairsRec xs).length := by ring
    rw [hsplit, ih]
    cases hxl : xs.length with
    | zero => simp
    | succ m =>
      simp only [Nat.succ_sub_one]
      ring

theorem pairsRec_length (l : List Material) :
    (pairsRec l).length = l.length * (l.length - 1) / 2 := by
  have h := pairsRec_two_mul_length l
  omega

/-- C2: for a tracker whose materials are pairwise distinct,
`sort_materials_into_pairs` returns exactly N·(N-1)/2 pairs; every
unordered pair of distinct materials appears exactly once (counting both
orders), no material is paired with itself, and hence no pair appears
twice in either order. -/
theorem claim_C2 (s : MaterialsTracker) (h : s.materials.Nodup) :
    (s.sort_materials_into_pairs).length
        = s.materials.length * (s.materials.length - 1) / 2
    ∧ (∀ a b : Material, a ∈ s.materials → b ∈ s.materials → a ≠ b →
        (s.sort_materials_into_pairs).count (a, b)
          + (s.sort_materials_into_pairs).count (b, a) = 1)
    ∧ ∀ a : Material, (s.sort_materials_into_pairs).count (a, a) = 0 := by
  rw [sort_eq_pairsRec]
  exact ⟨pairsRec_length _,
    fun a b ha hb hab => pairsRec_count_pair hab _ h ha hb,
    fun a => pairsRec_count_self h a⟩

/-- Witness for C2: three distinct materials yield 3 pairs; the unordered
pair (A, B) appears exactly once across both orders; (A, A) never
appears. -/
theorem claim_C2_witness :
    (s3.sort_materials_into_pairs).length = 3 * (3 - 1) / 2
    ∧ (s3.sort_materials_into_pairs).count (⟨"A", 1, [], ""⟩, ⟨"B", 2, [], ""⟩)
        + (s3.sort_materials_into_pairs).count (⟨"B", 2, [], ""⟩, ⟨"A", 1, [], ""⟩) = 1
    ∧ (s3.sort_materials_into_pairs).count (⟨"A", 1, [], ""⟩, ⟨"A", 1, [], ""⟩) = 0 := by
  have h := claim_C2 s3 (by decide)
  exact ⟨h.1, h.2.1 _ _ (by decide) (by decide) (by decide), h.2.2 _⟩
